import Mathlib

/-!
The NFQUEUE target option codec (`extensions/libxt_NFQUEUE.c`).

A shallow embedding of the three revisions of the NFQUEUE target extension:
the option parsers `NFQUEUE_parse`, `NFQUEUE_parse_v1`, `NFQUEUE_parse_v2`,
the printers `NFQUEUE_print*`, the savers `NFQUEUE_save*` and
`NFQUEUE_init_v1`.

Conventions of the embedding.

* A C string is the list of the characters that precede its terminating
  NUL, so `*p == 0` reads `p = []` and `*p != ':'` reads
  `p.head? ≠ some ':'`; `p + 1` is `p.tail`.
* `printf` appends to standard output; a printer is modelled by the text
  it appends.
* `xtables_error` never returns (it terminates the program).  A parser
  call therefore ends in an `Outcome`: how it ended (`Exit.ret v` or
  `Exit.error e`), together with the flag word and the record as they
  stand in memory at that moment.
* `unsigned int` is a natural number reduced modulo `2^32` where the
  arithmetic could leave the range, a `u16` field is reduced modulo `2^16`
  when it is stored.
-/

namespace NFQUEUE

/-! ## Machine integers -/

/-- The constant `UINT16_MAX` of `<stdint.h>`. -/
def UINT16_MAX : Nat := 65535

/-- Conversion of an integer to a 16-bit unsigned field. -/
def u16 (n : Nat) : Nat := n % 65536

/-- Conversion of an integer to `unsigned int` (32 bits). -/
def u32 (n : Nat) : Nat := n % 4294967296

/-- Conversion of a (possibly negative) `int` expression to `unsigned int`. -/
def u32_of_int (z : Int) : Nat := (z % 4294967296).toNat

/-! ## Errors and outcomes -/

/-- The parameter problems this extension reports through
`xtables_error(PARAMETER_PROBLEM, ...)`, named as in the specification. -/
inductive XtError where
  /-- "NFQUEUE target: Only use --queue-num ONCE!" -/
  | DuplicateOption
  /-- "Invalid queue number ..." with the offending argument text (`exit_badqueue`). -/
  | InvalidQueueNumber (s : List Char)
  /-- "Bad range ..." with the offending argument text. -/
  | MalformedRange (s : List Char)
  /-- "%u should be less than %u" with the two decoded bounds. -/
  | DegenerateRange (first last : Nat)
  /-- "NFQUEUE target: --queue-balance not supported (kernel too old?)" -/
  | UnsupportedInKernel
  deriving DecidableEq

/-- How a parser call ends: it returns an `int`, or `xtables_error` ends the program. -/
inductive Exit where
  | ret (v : Int)
  | error (e : XtError)
  deriving DecidableEq

/-- The observable result of a parser call: how it ended, and the flag word
and the record as the call left them. -/
structure Outcome (α : Type) where
  exit : Exit
  flags : Nat
  info : α
  deriving DecidableEq

/-! ## Records -/

/-- Modelled from the spec: the revision-0 record `struct xt_NFQ_info` of
`linux/netfilter/xt_NFQUEUE.h` (the header is not among the sources):
`{ queue_number: u16 }`. -/
structure xt_NFQ_info where
  queuenum : Nat
  deriving DecidableEq

/-- Modelled from the spec: the revision-1 record `struct xt_NFQ_info_v1` of
`linux/netfilter/xt_NFQUEUE.h` (the header is not among the sources):
`u16 queue_number; u16 queue_total`. -/
structure xt_NFQ_info_v1 where
  queuenum : Nat
  queues_total : Nat
  deriving DecidableEq

/-- Modelled from the spec: the revision-2 record `struct xt_NFQ_info_v2` of
`linux/netfilter/xt_NFQUEUE.h` (the header is not among the sources): the
revision-1 layout plus `u8 bypass`. -/
structure xt_NFQ_info_v2 where
  queuenum : Nat
  queues_total : Nat
  bypass : Nat
  deriving DecidableEq

/-- The fields of a revision-1 record hold 16-bit values. -/
def xt_NFQ_info_v1.wf (r : xt_NFQ_info_v1) : Prop :=
  r.queuenum < 65536 ∧ r.queues_total < 65536

instance (r : xt_NFQ_info_v1) : Decidable r.wf := by
  unfold xt_NFQ_info_v1.wf; infer_instance

/-- The view of a revision-2 record through a `struct xt_NFQ_info_v1 *`
(the cast `(void *)(*target)->data`): its first two fields. -/
def xt_NFQ_info_v2.as_v1 (r : xt_NFQ_info_v2) : xt_NFQ_info_v1 :=
  { queuenum := r.queuenum, queues_total := r.queues_total }

/-- Writing a revision-1 record back over the first two fields of a
revision-2 record; `bypass` is outside the revision-1 layout. -/
def xt_NFQ_info_v2.with_v1 (r : xt_NFQ_info_v2) (p : xt_NFQ_info_v1) : xt_NFQ_info_v2 :=
  { queuenum := p.queuenum, queues_total := p.queues_total, bypass := r.bypass }

/-! ## Decimal text -/

/-- The character of a decimal digit. -/
def digitChar (d : Nat) : Char := Char.ofNat (48 + d)

/-- The digit loop of `fmt_u`: least significant digit first, pushed in
front of the digits already produced. -/
def fmt_u_loop : Nat → Nat → List Char → List Char
  | 0, _, acc => acc
  | fuel + 1, n, acc =>
    if n / 10 = 0 then digitChar (n % 10) :: acc
    else fmt_u_loop fuel (n / 10) (digitChar (n % 10) :: acc)

/-- Modelled from the spec: the `%u` conversion of the C library's `printf`
(not part of the sources): the decimal digits of the value, most
significant first, no leading zero, `0` for zero. -/
def fmt_u (n : Nat) : List Char := fmt_u_loop (n + 1) n []

/-- The value of a decimal digit character. -/
def digitVal (c : Char) : Nat := c.toNat - 48

/-- The value of a run of decimal digits, most significant first. -/
def decVal (ds : List Char) : Nat := ds.foldl (fun a c => 10 * a + digitVal c) 0

/-- Modelled from the spec: `xtables_strtoui` of libxtables (declared in
`xtables.h`; its body is not among the sources).  The text is decoded as an
unsigned integer: the longest leading run of decimal digits, which must not
be empty and whose value must lie in `[min, max]`.  With `endp = false`
(the C call passes `NULL` for `end`) the text must be entirely consumed;
with `endp = true` the unconsumed rest is handed back (`*end`).  The result
is `none` where the C function returns `false`, else the value and the
rest. -/
def xtables_strtoui (s : List Char) (endp : Bool) (min max : Nat) :
    Option (Nat × List Char) :=
  let ds := s.takeWhile Char.isDigit
  let my_end := s.dropWhile Char.isDigit
  if ds = [] then none
  else if min ≤ decVal ds ∧ decVal ds ≤ max then
    if endp then some (decVal ds, my_end)
    else if my_end = [] then some (decVal ds, my_end)
    else none
  else none

/-- The text is, from its first to its last character, an unsigned decimal
integer whose value lies in `[lo, hi]`. -/
def WholeUInt (s : List Char) (lo hi : Nat) : Prop :=
  s ≠ [] ∧ (∀ c ∈ s, c.isDigit = true) ∧ lo ≤ decVal s ∧ decVal s ≤ hi

instance (s : List Char) (lo hi : Nat) : Decidable (WholeUInt s lo hi) := by
  unfold WholeUInt; infer_instance

/-- The record invariant the specification states for revisions 1 and 2:
`queue_count >= 1`, and a count above 1 encodes the inclusive range
`[queue_number, queue_number + queue_count - 1]` which fits in `[0, 65535]`. -/
def record_invariant (r : xt_NFQ_info_v1) : Prop :=
  r.queues_total ≥ 1 ∧ (r.queues_total > 1 → r.queuenum + r.queues_total - 1 ≤ 65535)

instance (r : xt_NFQ_info_v1) : Decidable (record_invariant r) := by
  unfold record_invariant; infer_instance

/-! ## Option table -/

/-- One entry of a `getopt_long` option table (`struct option`). -/
structure option where
  name : List Char
  has_arg : Bool
  val : Int
  deriving DecidableEq

/-- The option code `'F'` of `--queue-num`. -/
def OPT_F : Int := 70

/-- The option code `'B'` of `--queue-balance`. -/
def OPT_B : Int := 66

/-- The option code `'P'` of `--queue-bypass`. -/
def OPT_P : Int := 80

/-- The option table shared by the three revisions. -/
def NFQUEUE_opts : List option :=
  [ { name := "queue-num".toList, has_arg := true, val := OPT_F },
    { name := "queue-balance".toList, has_arg := true, val := OPT_B },
    { name := "queue-bypass".toList, has_arg := false, val := OPT_P } ]

/-! ## Parsers -/

/-- The C function `parse_num`: decode the whole text as a queue number in
`[0, UINT16_MAX]` and store it, or leave through `exit_badqueue`. -/
def parse_num (s : List Char) (tinfo : xt_NFQ_info) : Except XtError xt_NFQ_info :=
  match xtables_strtoui s false 0 UINT16_MAX with
  | none => .error (.InvalidQueueNumber s)
  | some (num, _) => .ok { tinfo with queuenum := u16 num }

/-- The revision-0 parser. -/
def NFQUEUE_parse (c : Int) (optarg : List Char) (flags : Nat) (tinfo : xt_NFQ_info) :
    Outcome xt_NFQ_info :=
  if c = OPT_F then
    if flags ≠ 0 then ⟨.error .DuplicateOption, flags, tinfo⟩
    else
      match parse_num optarg tinfo with
      | .error e => ⟨.error e, flags, tinfo⟩
      | .ok t => ⟨.ret 1, flags, t⟩
  else if c = OPT_B then ⟨.error .UnsupportedInKernel, flags, tinfo⟩
  else ⟨.ret 1, flags, tinfo⟩

/-- The revision-1 parser. -/
def NFQUEUE_parse_v1 (c : Int) (optarg : List Char) (flags : Nat) (info : xt_NFQ_info_v1) :
    Outcome xt_NFQ_info_v1 :=
  if c = OPT_F ∨ c = OPT_B then
    if flags ≠ 0 then ⟨.error .DuplicateOption, flags, info⟩
    else
      match xtables_strtoui optarg true 0 UINT16_MAX with
      | none => ⟨.error (.InvalidQueueNumber optarg), flags, info⟩
      | some (firstqueue, colon) =>
        let info1 : xt_NFQ_info_v1 := { info with queuenum := u16 firstqueue }
        if c = OPT_F then
          if colon ≠ [] then ⟨.error (.InvalidQueueNumber optarg), flags, info1⟩
          else ⟨.ret 1, flags, info1⟩
        else if colon.head? ≠ some ':' then ⟨.error (.MalformedRange optarg), flags, info1⟩
        else
          match xtables_strtoui colon.tail false 1 UINT16_MAX with
          | none => ⟨.error (.InvalidQueueNumber optarg), flags, info1⟩
          | some (lastqueue, _) =>
            if firstqueue ≥ lastqueue then
              ⟨.error (.DegenerateRange firstqueue lastqueue), flags, info1⟩
            else
              ⟨.ret 1, flags,
                { info1 with queues_total := u16 (u32 (lastqueue - firstqueue + 1)) }⟩
  else ⟨.ret 1, flags, info⟩

/-- The revision-2 parser. -/
def NFQUEUE_parse_v2 (c : Int) (optarg : List Char) (flags : Nat) (info : xt_NFQ_info_v2) :
    Outcome xt_NFQ_info_v2 :=
  if c = OPT_P then ⟨.ret 1, flags, { info with bypass := 1 }⟩
  else
    let o := NFQUEUE_parse_v1 c optarg flags info.as_v1
    ⟨o.exit, o.flags, info.with_v1 o.info⟩

/-! ## Printers and savers -/

/-- The revision-0 printer. -/
def NFQUEUE_print (tinfo : xt_NFQ_info) : List Char :=
  " NFQUEUE num ".toList ++ fmt_u tinfo.queuenum

/-- The revision-1 printer. -/
def NFQUEUE_print_v1 (tinfo : xt_NFQ_info_v1) : List Char :=
  let last := tinfo.queues_total
  if last > 1 then
    let last := u32_of_int ((last : Int) + ((tinfo.queuenum : Int) - 1))
    " NFQUEUE balance ".toList ++ fmt_u tinfo.queuenum ++ ':' :: fmt_u last
  else " NFQUEUE num ".toList ++ fmt_u tinfo.queuenum

/-- The revision-2 printer. -/
def NFQUEUE_print_v2 (info : xt_NFQ_info_v2) : List Char :=
  NFQUEUE_print_v1 info.as_v1 ++ (if info.bypass ≠ 0 then " bypass".toList else [])

/-- The revision-0 saver. -/
def NFQUEUE_save (tinfo : xt_NFQ_info) : List Char :=
  " --queue-num ".toList ++ fmt_u tinfo.queuenum

/-- The revision-1 saver. -/
def NFQUEUE_save_v1 (tinfo : xt_NFQ_info_v1) : List Char :=
  let last := tinfo.queues_total
  if last > 1 then
    let last := u32_of_int ((last : Int) + ((tinfo.queuenum : Int) - 1))
    " --queue-balance ".toList ++ fmt_u tinfo.queuenum ++ ':' :: fmt_u last
  else " --queue-num ".toList ++ fmt_u tinfo.queuenum

/-- The revision-2 saver. -/
def NFQUEUE_save_v2 (info : xt_NFQ_info_v2) : List Char :=
  NFQUEUE_save_v1 info.as_v1 ++ (if info.bypass ≠ 0 then "--queue-bypass ".toList else [])

/-- The init function of revisions 1 and 2, on the revision-1 layout. -/
def NFQUEUE_init_v1 (tinfo : xt_NFQ_info_v1) : xt_NFQ_info_v1 :=
  { tinfo with queues_total := 1 }

/-- The init function `NFQUEUE_init_v1` as revision 2 uses it: on the
first two fields of a revision-2 record. -/
def NFQUEUE_init_v1_on_v2 (info : xt_NFQ_info_v2) : xt_NFQ_info_v2 :=
  info.with_v1 (NFQUEUE_init_v1 info.as_v1)

/-! ## The host side: a rule's options, parsed one at a time -/

/-- A rule's options handed to a revision's parser one call after the
other, the flag word and the record threaded from call to call; the first
call that ends in `xtables_error` ends the run. -/
def run {α : Type} (parse : Int → List Char → Nat → α → Outcome α) :
    List (Int × List Char) → Nat → α → Outcome α
  | [], flags, info => ⟨.ret 1, flags, info⟩
  | (c, optarg) :: rest, flags, info =>
    let o := parse c optarg flags info
    match o.exit with
    | .error _ => o
    | .ret _ => run parse rest o.flags o.info

/-- The tokens of a text: the maximal runs of characters that are not
whitespace.  `cur` is the run being read, last character first. -/
def tokens_aux : List Char → List Char → List (List Char)
  | [], cur => if cur = [] then [] else [cur.reverse]
  | c :: cs, cur =>
    if c.isWhitespace then
      if cur = [] then tokens_aux cs [] else cur.reverse :: tokens_aux cs []
    else tokens_aux cs (c :: cur)

/-- A saved rule text split on whitespace. -/
def tokens (s : List Char) : List (List Char) := tokens_aux s []

/-- The entry of `NFQUEUE_opts` for a long-option token `--name`. -/
def find_opt (tok : List Char) : Option option :=
  match tok with
  | '-' :: '-' :: nm => NFQUEUE_opts.find? (fun o => o.name = nm)
  | _ => none

/-- Modelled from the spec: the host's option dispatch (`getopt_long` in
`do_command`, not among the sources): every token must be a long option of
`NFQUEUE_opts`; an option that takes an argument takes the next token.
The result is the list of parser calls (option code, argument), or `none`
when a token is no known option or an argument is missing. -/
def argv_calls : List (List Char) → Option (List (Int × List Char))
  | [] => some []
  | [tok] =>
    match find_opt tok with
    | some o => if o.has_arg then none else some [(o.val, [])]
    | none => none
  | tok :: arg :: rest =>
    match find_opt tok with
    | some o =>
      if o.has_arg then (argv_calls rest).map (fun l => (o.val, arg) :: l)
      else (argv_calls (arg :: rest)).map (fun l => (o.val, []) :: l)
    | none => none

/-- Feeding a saved text back: split it, resolve the options, and run the
parser over them from a clear flag word. -/
def replay {α : Type} (parse : Int → List Char → Nat → α → Outcome α)
    (text : List Char) (info : α) : Option (Outcome α) :=
  (argv_calls (tokens text)).map (fun calls => run parse calls 0 info)

/-! ## Help texts and the descriptor table -/

/-- The revision-0 help text. -/
def NFQUEUE_help : List Char :=
  ("NFQUEUE target options\n" ++
   "  --queue-num value\t\tSend packet to QUEUE number <value>.\n" ++
   "  \t\t                Valid queue numbers are 0-65535\n").toList

/-- The revision-1 help text: the revision-0 text and the balance option. -/
def NFQUEUE_help_v1 : List Char :=
  NFQUEUE_help ++
    "  --queue-balance first:last\tBalance flows between queues <value> to <value>.\n".toList

/-- The revision-2 help text: the revision-1 text and the bypass option. -/
def NFQUEUE_help_v2 : List Char :=
  NFQUEUE_help_v1 ++
    "  --queue-bypass\t\tBypass Queueing if no queue instance exists.\n".toList

/-- Modelled from the spec: the packet-filter family "unspecified"
(`NFPROTO_UNSPEC` of `linux/netfilter.h`, not among the sources), which
applies to both IPv4 and IPv6 contexts. -/
def NFPROTO_UNSPEC : Nat := 0

/-- A target descriptor (`struct xtables_target` of `xtables.h`, not among
the sources), with the fields the table below sets: family, revision, name,
and the help, init, parse, print and save functions on the revision's record
type `Data`, and the option table.  A field the initialiser leaves out is
zero: revision `0`, no init function (`none`).  The fields `version`, `size`
and `userspacesize` (the macro `XTABLES_VERSION` and the aligned compiled
sizes of the records) are not modelled. -/
structure xtables_target where
  family : Nat
  revision : Nat
  name : List Char
  Data : Type
  help : List Char
  init : Option (Data → Data)
  parse : Int → List Char → Nat → Data → Outcome Data
  print : Data → List Char
  save : Data → List Char
  extra_opts : List option

/-- The table of the three descriptors that `_init` registers. -/
def nfqueue_targets : List xtables_target :=
  [ { family := NFPROTO_UNSPEC,
      revision := 0,
      name := "NFQUEUE".toList,
      Data := xt_NFQ_info,
      help := NFQUEUE_help,
      init := none,
      parse := NFQUEUE_parse,
      print := NFQUEUE_print,
      save := NFQUEUE_save,
      extra_opts := NFQUEUE_opts },
    { family := NFPROTO_UNSPEC,
      revision := 1,
      name := "NFQUEUE".toList,
      Data := xt_NFQ_info_v1,
      help := NFQUEUE_help_v1,
      init := some NFQUEUE_init_v1,
      parse := NFQUEUE_parse_v1,
      print := NFQUEUE_print_v1,
      save := NFQUEUE_save_v1,
      extra_opts := NFQUEUE_opts },
    { family := NFPROTO_UNSPEC,
      revision := 2,
      name := "NFQUEUE".toList,
      Data := xt_NFQ_info_v2,
      help := NFQUEUE_help_v2,
      init := some NFQUEUE_init_v1_on_v2,
      parse := NFQUEUE_parse_v2,
      print := NFQUEUE_print_v2,
      save := NFQUEUE_save_v2,
      extra_opts := NFQUEUE_opts } ]

/-- The record type and the init function of a descriptor, as a pair. -/
def xtables_target.init_entry (t : xtables_target) : (D : Type) × Option (D → D) :=
  ⟨t.Data, t.init⟩

/-! ## Decimal text: rendering and decoding agree -/

theorem digitChar_isDigit {d : Nat} (h : d < 10) : (digitChar d).isDigit = true := by
  interval_cases d <;> decide

theorem digitVal_digitChar {d : Nat} (h : d < 10) : digitVal (digitChar d) = d := by
  interval_cases d <;> decide

/-- With enough fuel the digit loop puts, in front of what it was given, the
digits of `n` as Mathlib's `Nat.digits` lists them (there least significant
first), and the single digit `0` for zero. -/
theorem fmt_u_loop_eq (fuel : Nat) : ∀ (n : Nat) (acc : List Char), n < fuel →
    fmt_u_loop fuel n acc =
      (if n = 0 then [digitChar 0] else ((Nat.digits 10 n).reverse).map digitChar) ++ acc := by
  induction fuel with
  | zero => intro n acc h; omega
  | succ fuel ih =>
    intro n acc hn
    unfold fmt_u_loop
    by_cases h10 : n / 10 = 0
    · have hlt : n < 10 := by omega
      rw [if_pos h10]
      by_cases h0 : n = 0
      · subst h0; simp
      · rw [if_neg h0, Nat.digits_of_lt 10 n h0 hlt, Nat.mod_eq_of_lt hlt]; simp
    · have hpos : 0 < n := by omega
      have h0 : n ≠ 0 := by omega
      rw [if_neg h10, ih (n / 10) _ (by omega), if_neg h10, if_neg h0,
        Nat.digits_def' (by norm_num) hpos]
      simp

theorem fmt_u_eq (n : Nat) :
    fmt_u n = if n = 0 then [digitChar 0] else ((Nat.digits 10 n).reverse).map digitChar := by
  unfold fmt_u
  rw [fmt_u_loop_eq (n + 1) n [] (by omega), List.append_nil]

theorem fmt_u_ne_nil (n : Nat) : fmt_u n ≠ [] := by
  rw [fmt_u_eq]
  by_cases h0 : n = 0
  · simp [h0]
  · have : Nat.digits 10 n ≠ [] := Nat.digits_ne_nil_iff_ne_zero.mpr h0
    simp [h0, this]

theorem fmt_u_isDigit (n : Nat) : ∀ c ∈ fmt_u n, c.isDigit = true := by
  intro c hc
  rw [fmt_u_eq] at hc
  by_cases h0 : n = 0
  · rw [if_pos h0, List.mem_singleton] at hc
    rw [hc]; exact digitChar_isDigit (by norm_num)
  · rw [if_neg h0, List.mem_map] at hc
    obtain ⟨d, hd, rfl⟩ := hc
    exact digitChar_isDigit (Nat.digits_lt_base (by norm_num) (List.mem_reverse.mp hd))

theorem decVal_append (xs ys : List Char) :
    decVal (xs ++ ys) = ys.foldl (fun a c => 10 * a + digitVal c) (decVal xs) := by
  simp [decVal, List.foldl_append]

theorem decVal_digits (L : List Nat) (h : ∀ d ∈ L, d < 10) :
    decVal ((L.reverse).map digitChar) = Nat.ofDigits 10 L := by
  induction L with
  | nil => simp [decVal]
  | cons d L ih =>
    have hd : d < 10 := h d (List.mem_cons_self d L)
    have hL : ∀ x ∈ L, x < 10 := fun x hx => h x (List.mem_cons_of_mem d hx)
    rw [List.reverse_cons, List.map_append, decVal_append, ih hL, Nat.ofDigits_cons]
    simp [digitVal_digitChar hd]
    omega

theorem decVal_fmt_u (n : Nat) : decVal (fmt_u n) = n := by
  rw [fmt_u_eq]
  by_cases h0 : n = 0
  · subst h0; decide
  · rw [if_neg h0, decVal_digits _ (fun d hd => Nat.digits_lt_base (by norm_num) hd),
      Nat.ofDigits_digits]

theorem takeWhile_isDigit_append (ds rest : List Char) (h : ∀ c ∈ ds, c.isDigit = true) :
    (ds ++ rest).takeWhile Char.isDigit = ds ++ rest.takeWhile Char.isDigit := by
  induction ds with
  | nil => rfl
  | cons c ds ih =>
    have hc : c.isDigit = true := h c (List.mem_cons_self c ds)
    have hds : ∀ x ∈ ds, x.isDigit = true := fun x hx => h x (List.mem_cons_of_mem c hx)
    simp [List.takeWhile_cons, hc, ih hds]

theorem dropWhile_isDigit_append (ds rest : List Char) (h : ∀ c ∈ ds, c.isDigit = true) :
    (ds ++ rest).dropWhile Char.isDigit = rest.dropWhile Char.isDigit := by
  induction ds with
  | nil => rfl
  | cons c ds ih =>
    have hc : c.isDigit = true := h c (List.mem_cons_self c ds)
    have hds : ∀ x ∈ ds, x.isDigit = true := fun x hx => h x (List.mem_cons_of_mem c hx)
    simp [List.dropWhile_cons, hc, ih hds]

/-- A text at which a digit run ends: it is empty or starts with a character
that is no digit. -/
theorem takeWhile_isDigit_stop (rest : List Char)
    (hrest : ∀ c, rest.head? = some c → c.isDigit = false) :
    rest.takeWhile Char.isDigit = [] ∧ rest.dropWhile Char.isDigit = rest := by
  cases rest with
  | nil => exact ⟨rfl, rfl⟩
  | cons c cs =>
    have hc : c.isDigit = false := hrest c rfl
    simp [List.takeWhile_cons, List.dropWhile_cons, hc]

/-- Decoding a rendered number: `xtables_strtoui` reads the text printed for
`n`, followed by a rest at which the digit run ends, as `n` with that rest;
it accepts exactly when `n` is within the bounds and, for a call without
`end`, the rest is empty. -/
theorem xtables_strtoui_fmt_u (n : Nat) (rest : List Char) (endp : Bool) (min max : Nat)
    (hrest : ∀ c, rest.head? = some c → c.isDigit = false) :
    xtables_strtoui (fmt_u n ++ rest) endp min max =
      if min ≤ n ∧ n ≤ max then
        (if endp then some (n, rest) else if rest = [] then some (n, rest) else none)
      else none := by
  obtain ⟨ht, hd⟩ := takeWhile_isDigit_stop rest hrest
  unfold xtables_strtoui
  simp only [takeWhile_isDigit_append _ _ (fmt_u_isDigit n),
    dropWhile_isDigit_append _ _ (fmt_u_isDigit n), ht, hd, List.append_nil, decVal_fmt_u,
    if_neg (fmt_u_ne_nil n)]

theorem colon_stop (t : List Char) : ∀ c, (':' :: t).head? = some c → c.isDigit = false := by
  intro c hc
  simp only [List.head?_cons, Option.some.injEq] at hc
  subst hc; decide

theorem nil_stop : ∀ c, ([] : List Char).head? = some c → c.isDigit = false := by
  intro c hc; simp at hc

/-- The whole text printed for `n`, decoded without `end`. -/
theorem xtables_strtoui_fmt_u_whole (n min max : Nat) :
    xtables_strtoui (fmt_u n) false min max =
      if min ≤ n ∧ n ≤ max then some (n, []) else none := by
  have h := xtables_strtoui_fmt_u n [] false min max nil_stop
  simpa using h

/-! ## Decoding arbitrary text -/

theorem takeWhile_eq_self_of_all (s : List Char) (h : ∀ c ∈ s, c.isDigit = true) :
    s.takeWhile Char.isDigit = s ∧ s.dropWhile Char.isDigit = [] := by
  have h1 := takeWhile_isDigit_append s [] h
  have h2 := dropWhile_isDigit_append s [] h
  simp only [List.append_nil, List.takeWhile_nil, List.dropWhile_nil] at h1 h2
  exact ⟨h1, h2⟩

theorem all_isDigit_of_dropWhile_nil (s : List Char) (h : s.dropWhile Char.isDigit = []) :
    ∀ c ∈ s, c.isDigit = true := by
  induction s with
  | nil => intro c hc; simp at hc
  | cons a s ih =>
    by_cases ha : a.isDigit = true
    · simp only [List.dropWhile_cons, ha, if_true] at h
      intro c hc
      rcases List.mem_cons.mp hc with rfl | hc
      · exact ha
      · exact ih h c hc
    · simp [List.dropWhile_cons, ha] at h

/-- A call of `xtables_strtoui` without `end` accepts exactly the texts
that are wholly an unsigned decimal integer within the bounds. -/
theorem xtables_strtoui_whole (s : List Char) (min max : Nat) :
    xtables_strtoui s false min max =
      if WholeUInt s min max then some (decVal s, []) else none := by
  unfold xtables_strtoui WholeUInt
  by_cases hall : ∀ c ∈ s, c.isDigit = true
  · obtain ⟨ht, hd⟩ := takeWhile_eq_self_of_all s hall
    simp only [ht, hd]
    by_cases hs : s = []
    · simp [hs]
    · by_cases hb : min ≤ decVal s ∧ decVal s ≤ max
      · simp [hs, hb]; exact hall
      · simp [hs, hb]
  · have hd : s.dropWhile Char.isDigit ≠ [] := fun h => hall (all_isDigit_of_dropWhile_nil s h)
    have hneg : ¬ (s ≠ [] ∧ (∀ c ∈ s, c.isDigit = true) ∧ min ≤ decVal s ∧ decVal s ≤ max) :=
      fun h => hall h.2.1
    simp only [hd, if_neg hneg]
    split_ifs <;> simp_all

/-- A call of `xtables_strtoui` with `end` on a digit run `lead` followed by
a rest at which the run ends: accepted exactly when `lead` is an unsigned
decimal integer within the bounds, and then `*end` is the rest. -/
theorem xtables_strtoui_lead (lead rest : List Char) (min max : Nat)
    (hlead : ∀ c ∈ lead, c.isDigit = true)
    (hrest : ∀ c, rest.head? = some c → c.isDigit = false) :
    xtables_strtoui (lead ++ rest) true min max =
      if WholeUInt lead min max then some (decVal lead, rest) else none := by
  obtain ⟨ht, hd⟩ := takeWhile_isDigit_stop rest hrest
  unfold xtables_strtoui WholeUInt
  simp only [takeWhile_isDigit_append _ _ hlead, dropWhile_isDigit_append _ _ hlead, ht, hd,
    List.append_nil]
  by_cases hs : lead = []
  · simp [hs]
  · by_cases hb : min ≤ decVal lead ∧ decVal lead ≤ max
    · simp [hs, hb]; exact hlead
    · simp [hs, hb]

/-- Every text splits, in one way only, into its leading digit run and the
rest at which the run ends. -/
theorem lead_rest_split (s : List Char) :
    s = s.takeWhile Char.isDigit ++ s.dropWhile Char.isDigit ∧
    (∀ c ∈ s.takeWhile Char.isDigit, c.isDigit = true) ∧
    (∀ c, (s.dropWhile Char.isDigit).head? = some c → c.isDigit = false) := by
  refine ⟨(List.takeWhile_append_dropWhile _ s).symm, fun c hc => List.mem_takeWhile_imp hc, ?_⟩
  intro c hc
  have := List.head?_dropWhile_not Char.isDigit s
  rw [hc] at this
  simpa using this

/-! ## The parsers on a clear flag word -/

theorem u16_of_le {n : Nat} (h : n ≤ 65535) : u16 n = n := by
  unfold u16; omega

theorem UINT16_MAX_eq : UINT16_MAX = 65535 := rfl

/-- The revision-0 parser on `--queue-num` with a clear flag word. -/
theorem NFQUEUE_parse_F_eq (s : List Char) (tinfo : xt_NFQ_info) :
    NFQUEUE_parse OPT_F s 0 tinfo =
      if WholeUInt s 0 65535 then ⟨.ret 1, 0, ⟨decVal s⟩⟩
      else ⟨.error (.InvalidQueueNumber s), 0, tinfo⟩ := by
  unfold NFQUEUE_parse parse_num
  rw [xtables_strtoui_whole, UINT16_MAX_eq]
  by_cases h : WholeUInt s 0 65535
  · simp [h, u16_of_le h.2.2.2]
  · simp [h]

/-- The revision-1 parser on `--queue-num` with a clear flag word: the same
decision as revision 0, the count field left alone. -/
theorem NFQUEUE_parse_v1_F_eq (s : List Char) (info : xt_NFQ_info_v1) :
    NFQUEUE_parse_v1 OPT_F s 0 info =
      if WholeUInt s 0 65535 then ⟨.ret 1, 0, ⟨decVal s, info.queues_total⟩⟩
      else ⟨.error (.InvalidQueueNumber s), 0,
        if WholeUInt (s.takeWhile Char.isDigit) 0 65535
        then ⟨decVal (s.takeWhile Char.isDigit), info.queues_total⟩ else info⟩ := by
  obtain ⟨hsplit, hlead, hrest⟩ := lead_rest_split s
  have hdec := xtables_strtoui_lead _ _ 0 65535 hlead hrest
  rw [← hsplit] at hdec
  unfold NFQUEUE_parse_v1
  rw [UINT16_MAX_eq, hdec]
  by_cases hw : WholeUInt s 0 65535
  · obtain ⟨ht, hd⟩ := takeWhile_eq_self_of_all s hw.2.1
    simp [hw, hd, ht, u16_of_le hw.2.2.2]
  · by_cases hl : WholeUInt (s.takeWhile Char.isDigit) 0 65535
    · have hd : s.dropWhile Char.isDigit ≠ [] := by
        intro hd
        have hall := all_isDigit_of_dropWhile_nil s hd
        obtain ⟨ht, _⟩ := takeWhile_eq_self_of_all s hall
        rw [ht] at hl
        exact hw hl
      simp [hw, hl, hd, u16_of_le hl.2.2.2]
    · simp [hw, hl]

/-- The revision-1 parser on `--queue-balance` with a clear flag word, for
an argument text split as a digit run `lead` and the `rest` at which the run
ends: every way the call can end, with the record as it is left. -/
theorem NFQUEUE_parse_v1_B_eq (lead rest : List Char) (info : xt_NFQ_info_v1)
    (hlead : ∀ c ∈ lead, c.isDigit = true)
    (hrest : ∀ c, rest.head? = some c → c.isDigit = false) :
    NFQUEUE_parse_v1 OPT_B (lead ++ rest) 0 info =
      if ¬ WholeUInt lead 0 65535 then
        ⟨.error (.InvalidQueueNumber (lead ++ rest)), 0, info⟩
      else if rest.head? ≠ some ':' then
        ⟨.error (.MalformedRange (lead ++ rest)), 0, ⟨decVal lead, info.queues_total⟩⟩
      else if ¬ WholeUInt rest.tail 1 65535 then
        ⟨.error (.InvalidQueueNumber (lead ++ rest)), 0, ⟨decVal lead, info.queues_total⟩⟩
      else if decVal lead ≥ decVal rest.tail then
        ⟨.error (.DegenerateRange (decVal lead) (decVal rest.tail)), 0,
          ⟨decVal lead, info.queues_total⟩⟩
      else ⟨.ret 1, 0, ⟨decVal lead, u16 (decVal rest.tail - decVal lead + 1)⟩⟩ := by
  unfold NFQUEUE_parse_v1
  rw [UINT16_MAX_eq, xtables_strtoui_lead lead rest 0 65535 hlead hrest]
  simp only [xtables_strtoui_whole]
  have hBF : ¬ (OPT_B = OPT_F) := by decide
  by_cases hl : WholeUInt lead 0 65535
  · have hle := u16_of_le hl.2.2.2
    by_cases hc : rest.head? = some ':'
    · by_cases ht : WholeUInt rest.tail 1 65535
      · have htle : decVal rest.tail ≤ 65535 := ht.2.2.2
        by_cases hge : decVal lead ≥ decVal rest.tail
        · simp [hl, hc, ht, hge, hle, hBF]
        · have h32 : u32 (decVal rest.tail - decVal lead + 1) =
              decVal rest.tail - decVal lead + 1 := by unfold u32; omega
          simp [hl, hc, ht, hge, hle, hBF, h32]
      · simp [hl, hc, ht, hle, hBF]
    · simp [hl, hc, hle, hBF]
  · simp [hl, hBF]

/-- The rendered range `F:L` as a `--queue-balance` argument, for first
bound `F` up to 65535 and any `L`. -/
theorem NFQUEUE_parse_v1_B_fmt (F L : Nat) (hF : F ≤ 65535) (info : xt_NFQ_info_v1) :
    NFQUEUE_parse_v1 OPT_B (fmt_u F ++ ':' :: fmt_u L) 0 info =
      if ¬ (1 ≤ L ∧ L ≤ 65535) then
        ⟨.error (.InvalidQueueNumber (fmt_u F ++ ':' :: fmt_u L)), 0, ⟨F, info.queues_total⟩⟩
      else if F ≥ L then ⟨.error (.DegenerateRange F L), 0, ⟨F, info.queues_total⟩⟩
      else ⟨.ret 1, 0, ⟨F, u16 (L - F + 1)⟩⟩ := by
  rw [NFQUEUE_parse_v1_B_eq _ _ info (fmt_u_isDigit F) (colon_stop _)]
  have hFw : WholeUInt (fmt_u F) 0 65535 :=
    ⟨fmt_u_ne_nil F, fmt_u_isDigit F, Nat.zero_le _, by rw [decVal_fmt_u]; exact hF⟩
  have hLw : WholeUInt (fmt_u L) 1 65535 ↔ (1 ≤ L ∧ L ≤ 65535) := by
    unfold WholeUInt
    rw [decVal_fmt_u]
    exact ⟨fun h => h.2.2, fun h => ⟨fmt_u_ne_nil L, fmt_u_isDigit L, h⟩⟩
  simp only [List.head?_cons, List.tail_cons, decVal_fmt_u, hLw, hFw, not_true_eq_false,
    if_false, ne_eq]

/-! ## Splitting a saved text -/

theorem isWhitespace_of_isDigit {c : Char} (h : c.isDigit = true) : c.isWhitespace = false := by
  simp only [Char.isWhitespace, Bool.or_eq_false_iff, decide_eq_false_iff_not]
  refine ⟨⟨⟨?_, ?_⟩, ?_⟩, ?_⟩ <;> (rintro rfl; revert h; decide)

theorem tokens_aux_word (w : List Char) (hw : ∀ c ∈ w, c.isWhitespace = false) :
    ∀ (rest cur : List Char), tokens_aux (w ++ rest) cur = tokens_aux rest (w.reverse ++ cur) := by
  induction w with
  | nil => intro rest cur; rfl
  | cons c w ih =>
    intro rest cur
    have hc : c.isWhitespace = false := hw c (List.mem_cons_self c w)
    have hw' : ∀ x ∈ w, x.isWhitespace = false := fun x hx => hw x (List.mem_cons_of_mem c hx)
    rw [List.cons_append, tokens_aux]
    simp only [hc, Bool.false_eq_true, if_false]
    rw [ih hw' rest (c :: cur)]
    simp

/-- A word in front of a blank is the first token. -/
theorem tokens_aux_word_blank (w rest : List Char) (hw : ∀ c ∈ w, c.isWhitespace = false)
    (hne : w ≠ []) : tokens_aux (w ++ ' ' :: rest) [] = w :: tokens_aux rest [] := by
  rw [tokens_aux_word w hw, tokens_aux]
  have hsp : Char.isWhitespace ' ' = true := by decide
  simp [hsp, hne]

/-- A word at the end of the text is the last token. -/
theorem tokens_aux_word_end (w : List Char) (hw : ∀ c ∈ w, c.isWhitespace = false)
    (hne : w ≠ []) : tokens_aux w [] = [w] := by
  have h := tokens_aux_word w hw [] []
  rw [List.append_nil] at h
  rw [h, tokens_aux]
  simp [hne]

/-- The saved form of a single queue number splits into the option and its argument. -/
theorem tokens_queue_num (n : Nat) :
    tokens (" --queue-num ".toList ++ fmt_u n) = ["--queue-num".toList, fmt_u n] := by
  have h0 : " --queue-num ".toList ++ fmt_u n =
      ' ' :: ("--queue-num".toList ++ ' ' :: fmt_u n) := rfl
  have hsp : Char.isWhitespace ' ' = true := by decide
  have hw : ∀ c ∈ "--queue-num".toList, c.isWhitespace = false := by decide
  unfold tokens
  rw [h0, tokens_aux]
  simp only [hsp, if_true]
  rw [tokens_aux_word_blank _ _ hw (by decide),
    tokens_aux_word_end _ (fun c hc => isWhitespace_of_isDigit (fmt_u_isDigit n c hc))
      (fmt_u_ne_nil n)]

/-- Feeding back the saved form of a single queue number is one parser call
with option code `'F'`. -/
theorem replay_queue_num {α : Type} (parse : Int → List Char → Nat → α → Outcome α)
    (n : Nat) (info : α) :
    replay parse (" --queue-num ".toList ++ fmt_u n) info =
      some (run parse [(OPT_F, fmt_u n)] 0 info) := by
  unfold replay
  rw [tokens_queue_num]
  have hf : find_opt "--queue-num".toList =
      some { name := "queue-num".toList, has_arg := true, val := OPT_F } := by decide
  simp only [argv_calls, hf, if_true, Option.map_some']

/-! ## Supporting facts for the claims -/

theorem wholeUInt_fmt_u (n lo hi : Nat) (h1 : lo ≤ n) (h2 : n ≤ hi) :
    WholeUInt (fmt_u n) lo hi :=
  ⟨fmt_u_ne_nil n, fmt_u_isDigit n, by rw [decVal_fmt_u]; exact h1, by rw [decVal_fmt_u]; exact h2⟩

/-- Revision 0 on the rendered queue number. -/
theorem NFQUEUE_parse_F_fmt (N : Nat) (hN : N ≤ 65535) (tinfo : xt_NFQ_info) :
    NFQUEUE_parse OPT_F (fmt_u N) 0 tinfo = ⟨.ret 1, 0, ⟨N⟩⟩ := by
  rw [NFQUEUE_parse_F_eq, if_pos (wholeUInt_fmt_u N 0 65535 (Nat.zero_le _) hN), decVal_fmt_u]

/-- Revision 1 on the rendered queue number. -/
theorem NFQUEUE_parse_v1_F_fmt (N : Nat) (hN : N ≤ 65535) (info : xt_NFQ_info_v1) :
    NFQUEUE_parse_v1 OPT_F (fmt_u N) 0 info = ⟨.ret 1, 0, ⟨N, info.queues_total⟩⟩ := by
  rw [NFQUEUE_parse_v1_F_eq, if_pos (wholeUInt_fmt_u N 0 65535 (Nat.zero_le _) hN), decVal_fmt_u]

/-- Revision 2 on the rendered queue number. -/
theorem NFQUEUE_parse_v2_F_fmt (N : Nat) (hN : N ≤ 65535) (info : xt_NFQ_info_v2) :
    NFQUEUE_parse_v2 OPT_F (fmt_u N) 0 info =
      ⟨.ret 1, 0, ⟨N, info.queues_total, info.bypass⟩⟩ := by
  have hFP : ¬ (OPT_F = OPT_P) := by decide
  unfold NFQUEUE_parse_v2
  rw [if_neg hFP]
  simp only [NFQUEUE_parse_v1_F_fmt N hN, xt_NFQ_info_v2.with_v1, xt_NFQ_info_v2.as_v1]

/-- A rule with the single option `--queue-num N`, run from a clear flag word. -/
theorem run_single_ret {α : Type} (parse : Int → List Char → Nat → α → Outcome α)
    (c : Int) (a : List Char) (info info' : α)
    (h : parse c a 0 info = ⟨.ret 1, 0, info'⟩) :
    run parse [(c, a)] 0 info = ⟨.ret 1, 0, info'⟩ := by
  simp [run, h]

/-- The last queue of a balance range as the revision-1 printer and saver
compute it in `unsigned int`. -/
theorem last_queue_eq (q t : Nat) (ht : 1 < t) (hq : q < 65536) (ht' : t < 65536) :
    u32_of_int ((t : Int) + ((q : Int) - 1)) = q + t - 1 := by
  unfold u32_of_int
  omega

/-- Every range `F:L` with `F < L ≤ 65535` other than `0:65535` is parsed by
revision 1 to `queue_number = F`, `queue_count = L - F + 1`, and that record
is printed as ` NFQUEUE balance F:L`. -/
theorem NFQUEUE_parse_v1_balance_ok (F L : Nat) (hFL : F < L) (hL : L ≤ 65535)
    (hne : ¬ (F = 0 ∧ L = 65535)) (info : xt_NFQ_info_v1) :
    NFQUEUE_parse_v1 OPT_B (fmt_u F ++ ':' :: fmt_u L) 0 (NFQUEUE_init_v1 info) =
        ⟨.ret 1, 0, ⟨F, L - F + 1⟩⟩ ∧
      NFQUEUE_print_v1 ⟨F, L - F + 1⟩ =
        " NFQUEUE balance ".toList ++ fmt_u F ++ ':' :: fmt_u L := by
  constructor
  · rw [NFQUEUE_parse_v1_B_fmt F L (by omega)]
    have h1 : (1 ≤ L ∧ L ≤ 65535) := ⟨by omega, hL⟩
    have h2 : ¬ (F ≥ L) := by omega
    have h3 : u16 (L - F + 1) = L - F + 1 := u16_of_le (by omega)
    simp [h1, h2, h3]
  · unfold NFQUEUE_print_v1
    have hgt : L - F + 1 > 1 := by omega
    have hlast := last_queue_eq F (L - F + 1) (by omega) (by omega) (by omega)
    have hL' : F + (L - F + 1) - 1 = L := by omega
    simp only [hgt, if_true, hlast, hL']

/-- No call of the revision-0 parser changes the flag word. -/
theorem NFQUEUE_parse_flags (c : Int) (s : List Char) (flags : Nat) (tinfo : xt_NFQ_info) :
    (NFQUEUE_parse c s flags tinfo).flags = flags := by
  unfold NFQUEUE_parse
  repeat' split
  all_goals rfl

/-- No call of the revision-1 parser changes the flag word. -/
theorem NFQUEUE_parse_v1_flags (c : Int) (s : List Char) (flags : Nat)
    (info : xt_NFQ_info_v1) : (NFQUEUE_parse_v1 c s flags info).flags = flags := by
  unfold NFQUEUE_parse_v1
  dsimp only
  repeat' split
  all_goals rfl

/-- No call of the revision-2 parser changes the flag word. -/
theorem NFQUEUE_parse_v2_flags (c : Int) (s : List Char) (flags : Nat)
    (info : xt_NFQ_info_v2) : (NFQUEUE_parse_v2 c s flags info).flags = flags := by
  unfold NFQUEUE_parse_v2
  split_ifs
  · rfl
  · exact NFQUEUE_parse_v1_flags c s flags info.as_v1

/-- The saved form of a balance range splits into the option and its argument. -/
theorem tokens_queue_balance (F L : Nat) :
    tokens (" --queue-balance ".toList ++ fmt_u F ++ ':' :: fmt_u L) =
      ["--queue-balance".toList, fmt_u F ++ ':' :: fmt_u L] := by
  have h0 : " --queue-balance ".toList ++ fmt_u F ++ ':' :: fmt_u L =
      ' ' :: ("--queue-balance".toList ++ ' ' :: (fmt_u F ++ ':' :: fmt_u L)) := by
    rw [List.append_assoc]; rfl
  have hsp : Char.isWhitespace ' ' = true := by decide
  have hw : ∀ c ∈ "--queue-balance".toList, c.isWhitespace = false := by decide
  have harg : ∀ c ∈ fmt_u F ++ ':' :: fmt_u L, c.isWhitespace = false := by
    intro c hc
    rcases List.mem_append.mp hc with h | h
    · exact isWhitespace_of_isDigit (fmt_u_isDigit F c h)
    · rcases List.mem_cons.mp h with rfl | h
      · decide
      · exact isWhitespace_of_isDigit (fmt_u_isDigit L c h)
  unfold tokens
  rw [h0, tokens_aux]
  simp only [hsp, if_true]
  rw [tokens_aux_word_blank _ _ hw (by decide), tokens_aux_word_end _ harg (by simp)]

/-- Feeding back the saved form of a balance range is one parser call with
option code `'B'`. -/
theorem replay_queue_balance {α : Type} (parse : Int → List Char → Nat → α → Outcome α)
    (F L : Nat) (info : α) :
    replay parse (" --queue-balance ".toList ++ fmt_u F ++ ':' :: fmt_u L) info =
      some (run parse [(OPT_B, fmt_u F ++ ':' :: fmt_u L)] 0 info) := by
  unfold replay
  rw [tokens_queue_balance]
  have hf : find_opt "--queue-balance".toList =
      some { name := "queue-balance".toList, has_arg := true, val := OPT_B } := by decide
  simp only [argv_calls, hf, if_true, Option.map_some']

/-- With `bypass` clear the revision-2 save text does feed back: for every
revision-2 record with 16-bit fields, `queue_count >= 1`,
`queue_number + queue_count - 1 <= 65535` and `bypass = 0`, splitting what
`NFQUEUE_save_v2` writes and running `NFQUEUE_parse_v2` over it on a zeroed
record after init gives the record back. -/
theorem save_v2_round_trip_without_bypass (q t : Nat) (hq : q < 65536) (ht : t < 65536)
    (h1 : 1 ≤ t) (hfit : q + t - 1 ≤ 65535) :
    replay NFQUEUE_parse_v2 (NFQUEUE_save_v2 ⟨q, t, 0⟩) (NFQUEUE_init_v1_on_v2 ⟨0, 0, 0⟩) =
      some ⟨.ret 1, 0, ⟨q, t, 0⟩⟩ := by
  by_cases hc : t > 1
  · have hlast := last_queue_eq q t hc hq ht
    have hs : NFQUEUE_save_v2 ⟨q, t, 0⟩ =
        " --queue-balance ".toList ++ fmt_u q ++ ':' :: fmt_u (q + t - 1) := by
      simp [NFQUEUE_save_v2, NFQUEUE_save_v1, xt_NFQ_info_v2.as_v1, hc, hlast]
    have hBP : ¬ (OPT_B = OPT_P) := by decide
    have hp : NFQUEUE_parse_v2 OPT_B (fmt_u q ++ ':' :: fmt_u (q + t - 1)) 0
        (NFQUEUE_init_v1_on_v2 ⟨0, 0, 0⟩) = ⟨.ret 1, 0, ⟨q, t, 0⟩⟩ := by
      unfold NFQUEUE_parse_v2
      rw [if_neg hBP]
      have hr : (1 ≤ q + t - 1 ∧ q + t - 1 ≤ 65535) := ⟨by omega, hfit⟩
      have h2 : ¬ (q ≥ q + t - 1) := by omega
      have h3 : q + t - 1 - q + 1 = t := by omega
      have h4 : u16 t = t := u16_of_le (by omega)
      simp only [NFQUEUE_parse_v1_B_fmt q (q + t - 1) (by omega)]
      simp [hr, h2, h3, h4, xt_NFQ_info_v2.with_v1, NFQUEUE_init_v1_on_v2]
    rw [hs, replay_queue_balance, run_single_ret _ _ _ _ _ hp]
  · have ht1 : t = 1 := by omega
    subst ht1
    have hs : NFQUEUE_save_v2 ⟨q, 1, 0⟩ = " --queue-num ".toList ++ fmt_u q := by
      simp [NFQUEUE_save_v2, NFQUEUE_save_v1, xt_NFQ_info_v2.as_v1]
    have hp : NFQUEUE_parse_v2 OPT_F (fmt_u q) 0 (NFQUEUE_init_v1_on_v2 ⟨0, 0, 0⟩) =
        ⟨.ret 1, 0, ⟨q, 1, 0⟩⟩ := NFQUEUE_parse_v2_F_fmt q (by omega) _
    rw [hs, replay_queue_num, run_single_ret _ _ _ _ _ hp]

/-! ## The claims -/

/-- C1: the claim fails at `F = 0`, `L = 65535`, a pair it covers.  The
argument text is `0:65535`; revision 1 accepts it and stores
`queue_count = 65536 mod 2^16 = 0` instead of `L - F + 1 = 65536`, and the
record is then printed as ` NFQUEUE num 0`, not ` NFQUEUE balance 0:65535`. -/
theorem balance_full_range_count_wraps :
    fmt_u 0 ++ ':' :: fmt_u 65535 = "0:65535".toList ∧
    NFQUEUE_parse_v1 OPT_B (fmt_u 0 ++ ':' :: fmt_u 65535) 0 (NFQUEUE_init_v1 ⟨0, 0⟩) =
      ⟨.ret 1, 0, ⟨0, 0⟩⟩ ∧
    NFQUEUE_print_v1 ⟨0, 0⟩ = " NFQUEUE num 0".toList ∧
    NFQUEUE_print_v1 ⟨0, 0⟩ ≠ " NFQUEUE balance ".toList ++ fmt_u 0 ++ ':' :: fmt_u 65535 := by
  decide

/-- C2: no revision sets the one-time flag.  In each revision a first
`--queue-num 1` on a clear flag word succeeds and leaves the flag word
clear, and a second `--queue-num 2` on the same record with the flag word
as the first call left it succeeds too and overwrites the queue number: the
second call does not fail with `DuplicateOption`. -/
theorem second_queue_num_not_rejected :
    (NFQUEUE_parse OPT_F "1".toList 0 ⟨0⟩ = ⟨.ret 1, 0, ⟨1⟩⟩ ∧
      NFQUEUE_parse OPT_F "2".toList 0 ⟨1⟩ = ⟨.ret 1, 0, ⟨2⟩⟩ ∧
      run NFQUEUE_parse [(OPT_F, "1".toList), (OPT_F, "2".toList)] 0 ⟨0⟩ = ⟨.ret 1, 0, ⟨2⟩⟩) ∧
    (NFQUEUE_parse_v1 OPT_F "1".toList 0 (NFQUEUE_init_v1 ⟨0, 0⟩) = ⟨.ret 1, 0, ⟨1, 1⟩⟩ ∧
      NFQUEUE_parse_v1 OPT_F "2".toList 0 ⟨1, 1⟩ = ⟨.ret 1, 0, ⟨2, 1⟩⟩ ∧
      run NFQUEUE_parse_v1 [(OPT_F, "1".toList), (OPT_F, "2".toList)] 0
        (NFQUEUE_init_v1 ⟨0, 0⟩) = ⟨.ret 1, 0, ⟨2, 1⟩⟩) ∧
    (NFQUEUE_parse_v2 OPT_F "1".toList 0 (NFQUEUE_init_v1_on_v2 ⟨0, 0, 0⟩) =
        ⟨.ret 1, 0, ⟨1, 1, 0⟩⟩ ∧
      NFQUEUE_parse_v2 OPT_F "2".toList 0 ⟨1, 1, 0⟩ = ⟨.ret 1, 0, ⟨2, 1, 0⟩⟩ ∧
      run NFQUEUE_parse_v2 [(OPT_F, "1".toList), (OPT_F, "2".toList)] 0
        (NFQUEUE_init_v1_on_v2 ⟨0, 0, 0⟩) = ⟨.ret 1, 0, ⟨2, 1, 0⟩⟩) := by
  decide

/-- C3: the round trip fails for the revision-2 record `queue_number = 5`,
`queue_count = 1`, `bypass = 1`.  `NFQUEUE_save_v2` writes
` --queue-num 5--queue-bypass ` (the blank of the bypass option is after
it, not before it), whose tokens are `--queue-num` and `5--queue-bypass`;
fed back, the call for `--queue-num` ends in `InvalidQueueNumber`. -/
theorem save_v2_bypass_not_replayable :
    NFQUEUE_save_v2 ⟨5, 1, 1⟩ = " --queue-num 5--queue-bypass ".toList ∧
    tokens (NFQUEUE_save_v2 ⟨5, 1, 1⟩) = ["--queue-num".toList, "5--queue-bypass".toList] ∧
    argv_calls (tokens (NFQUEUE_save_v2 ⟨5, 1, 1⟩)) =
      some [(OPT_F, "5--queue-bypass".toList)] ∧
    replay NFQUEUE_parse_v2 (NFQUEUE_save_v2 ⟨5, 1, 1⟩) (NFQUEUE_init_v1_on_v2 ⟨0, 0, 0⟩) =
      some ⟨.error (.InvalidQueueNumber "5--queue-bypass".toList), 0, ⟨5, 1, 0⟩⟩ := by
  decide

/-- C4 (counterexample): for `F = 5`, `L = 0` (so `F >= L`, both within
`[0, 65535]`) the revision-1 parser on `--queue-balance 5:0` fails with
`InvalidQueueNumber` carrying the text, not with `DegenerateRange 5 0`. -/
theorem balance_last_zero_is_invalid_number :
    fmt_u 5 ++ ':' :: fmt_u 0 = "5:0".toList ∧
    (NFQUEUE_parse_v1 OPT_B (fmt_u 5 ++ ':' :: fmt_u 0) 0 (NFQUEUE_init_v1 ⟨0, 0⟩)).exit =
      .error (.InvalidQueueNumber "5:0".toList) ∧
    (NFQUEUE_parse_v1 OPT_B (fmt_u 5 ++ ':' :: fmt_u 0) 0 (NFQUEUE_init_v1 ⟨0, 0⟩)).exit ≠
      .error (.DegenerateRange 5 0) := by
  decide

/-- C4 (amended): for all `F`, `L` in `[0, 65535]` with `F >= L`, the
revision-1 parser on `--queue-balance F:L` with a clear flag word fails; the
failure is `DegenerateRange F L` when `L >= 1`, and `InvalidQueueNumber`
carrying the text when `L = 0`. -/
theorem balance_degenerate_range (F L : Nat) (hFL : L ≤ F) (hF : F ≤ 65535)
    (info : xt_NFQ_info_v1) :
    (NFQUEUE_parse_v1 OPT_B (fmt_u F ++ ':' :: fmt_u L) 0 info).exit =
      if 1 ≤ L then .error (.DegenerateRange F L)
      else .error (.InvalidQueueNumber (fmt_u F ++ ':' :: fmt_u L)) := by
  rw [NFQUEUE_parse_v1_B_fmt F L hF]
  by_cases h1 : 1 ≤ L
  · have h2 : (1 ≤ L ∧ L ≤ 65535) := ⟨h1, by omega⟩
    have h3 : F ≥ L := hFL
    simp [h1, h2, h3]
  · have h2 : ¬ (1 ≤ L ∧ L ≤ 65535) := fun h => h1 h.1
    simp [h1]

/-- Witness of `balance_degenerate_range` at `F = L = 10`. -/
theorem balance_degenerate_range_witness :
    10 ≤ 10 ∧ 10 ≤ 65535 ∧
    (NFQUEUE_parse_v1 OPT_B (fmt_u 10 ++ ':' :: fmt_u 10) 0 ⟨0, 1⟩).exit =
      if 1 ≤ 10 then .error (.DegenerateRange 10 10)
      else .error (.InvalidQueueNumber (fmt_u 10 ++ ':' :: fmt_u 10)) :=
  ⟨by decide, by decide, balance_degenerate_range 10 10 (by decide) (by decide) ⟨0, 1⟩⟩

/-- C5: the invariant fails after successful calls on a record fresh from
init.  One call `--queue-balance 0:65535` succeeds and leaves
`queue_count = 0`, which is not `>= 1`.  And since no call sets the flag
word, `--queue-balance 1:5` followed by `--queue-num 65535` both succeed
and leave `queue_number = 65535`, `queue_count = 5`, a range that ends at
65539. -/
theorem parse_v1_breaks_record_invariant :
    record_invariant (NFQUEUE_init_v1 ⟨0, 0⟩) ∧
    run NFQUEUE_parse_v1 [(OPT_B, "0:65535".toList)] 0 (NFQUEUE_init_v1 ⟨0, 0⟩) =
      ⟨.ret 1, 0, ⟨0, 0⟩⟩ ∧
    ¬ record_invariant ⟨0, 0⟩ ∧
    run NFQUEUE_parse_v1 [(OPT_B, "1:5".toList), (OPT_F, "65535".toList)] 0
      (NFQUEUE_init_v1 ⟨0, 0⟩) = ⟨.ret 1, 0, ⟨65535, 5⟩⟩ ∧
    ¬ record_invariant ⟨65535, 5⟩ := by
  decide

/-- C6: for every `N` in `[0, 65535]` and every revision, `--queue-num`
with the decimal text of `N`, on a zeroed record (after init for revisions 1
and 2) and a clear flag word, succeeds with `queue_number = N` (and
`queue_count = 1`, `bypass = 0`); the record is printed as ` NFQUEUE num N`
and saved as ` --queue-num N`, and feeding the saved text back into a fresh
record gives the same record. -/
theorem queue_num_round_trip (N : Nat) (hN : N ≤ 65535) :
    (NFQUEUE_parse OPT_F (fmt_u N) 0 ⟨0⟩ = ⟨.ret 1, 0, ⟨N⟩⟩ ∧
      NFQUEUE_print ⟨N⟩ = " NFQUEUE num ".toList ++ fmt_u N ∧
      NFQUEUE_save ⟨N⟩ = " --queue-num ".toList ++ fmt_u N ∧
      replay NFQUEUE_parse (NFQUEUE_save ⟨N⟩) ⟨0⟩ = some ⟨.ret 1, 0, ⟨N⟩⟩) ∧
    (NFQUEUE_parse_v1 OPT_F (fmt_u N) 0 (NFQUEUE_init_v1 ⟨0, 0⟩) = ⟨.ret 1, 0, ⟨N, 1⟩⟩ ∧
      NFQUEUE_print_v1 ⟨N, 1⟩ = " NFQUEUE num ".toList ++ fmt_u N ∧
      NFQUEUE_save_v1 ⟨N, 1⟩ = " --queue-num ".toList ++ fmt_u N ∧
      replay NFQUEUE_parse_v1 (NFQUEUE_save_v1 ⟨N, 1⟩) (NFQUEUE_init_v1 ⟨0, 0⟩) =
        some ⟨.ret 1, 0, ⟨N, 1⟩⟩) ∧
    (NFQUEUE_parse_v2 OPT_F (fmt_u N) 0 (NFQUEUE_init_v1_on_v2 ⟨0, 0, 0⟩) =
        ⟨.ret 1, 0, ⟨N, 1, 0⟩⟩ ∧
      NFQUEUE_print_v2 ⟨N, 1, 0⟩ = " NFQUEUE num ".toList ++ fmt_u N ∧
      NFQUEUE_save_v2 ⟨N, 1, 0⟩ = " --queue-num ".toList ++ fmt_u N ∧
      replay NFQUEUE_parse_v2 (NFQUEUE_save_v2 ⟨N, 1, 0⟩) (NFQUEUE_init_v1_on_v2 ⟨0, 0, 0⟩) =
        some ⟨.ret 1, 0, ⟨N, 1, 0⟩⟩) := by
  have h0 := NFQUEUE_parse_F_fmt N hN ⟨0⟩
  have h1 : NFQUEUE_parse_v1 OPT_F (fmt_u N) 0 (NFQUEUE_init_v1 ⟨0, 0⟩) =
      ⟨.ret 1, 0, ⟨N, 1⟩⟩ := NFQUEUE_parse_v1_F_fmt N hN (NFQUEUE_init_v1 ⟨0, 0⟩)
  have h2 : NFQUEUE_parse_v2 OPT_F (fmt_u N) 0 (NFQUEUE_init_v1_on_v2 ⟨0, 0, 0⟩) =
      ⟨.ret 1, 0, ⟨N, 1, 0⟩⟩ := NFQUEUE_parse_v2_F_fmt N hN (NFQUEUE_init_v1_on_v2 ⟨0, 0, 0⟩)
  have hs1 : NFQUEUE_save_v1 ⟨N, 1⟩ = " --queue-num ".toList ++ fmt_u N := by
    simp [NFQUEUE_save_v1]
  have hs2 : NFQUEUE_save_v2 ⟨N, 1, 0⟩ = " --queue-num ".toList ++ fmt_u N := by
    simp [NFQUEUE_save_v2, NFQUEUE_save_v1, xt_NFQ_info_v2.as_v1]
  refine ⟨⟨h0, rfl, rfl, ?_⟩, ⟨h1, ?_, hs1, ?_⟩, ⟨h2, ?_, hs2, ?_⟩⟩
  · show replay NFQUEUE_parse (" --queue-num ".toList ++ fmt_u N) ⟨0⟩ = _
    rw [replay_queue_num, run_single_ret _ _ _ _ _ h0]
  · simp [NFQUEUE_print_v1]
  · rw [hs1, replay_queue_num, run_single_ret _ _ _ _ _ h1]
  · simp [NFQUEUE_print_v2, NFQUEUE_print_v1, xt_NFQ_info_v2.as_v1]
  · rw [hs2, replay_queue_num, run_single_ret _ _ _ _ _ h2]

/-- Witness of `queue_num_round_trip` at `N = 65535`. -/
theorem queue_num_round_trip_witness :
    65535 ≤ 65535 ∧
    ((NFQUEUE_parse OPT_F (fmt_u 65535) 0 ⟨0⟩ = ⟨.ret 1, 0, ⟨65535⟩⟩ ∧
      NFQUEUE_print ⟨65535⟩ = " NFQUEUE num ".toList ++ fmt_u 65535 ∧
      NFQUEUE_save ⟨65535⟩ = " --queue-num ".toList ++ fmt_u 65535 ∧
      replay NFQUEUE_parse (NFQUEUE_save ⟨65535⟩) ⟨0⟩ = some ⟨.ret 1, 0, ⟨65535⟩⟩) ∧
    (NFQUEUE_parse_v1 OPT_F (fmt_u 65535) 0 (NFQUEUE_init_v1 ⟨0, 0⟩) =
        ⟨.ret 1, 0, ⟨65535, 1⟩⟩ ∧
      NFQUEUE_print_v1 ⟨65535, 1⟩ = " NFQUEUE num ".toList ++ fmt_u 65535 ∧
      NFQUEUE_save_v1 ⟨65535, 1⟩ = " --queue-num ".toList ++ fmt_u 65535 ∧
      replay NFQUEUE_parse_v1 (NFQUEUE_save_v1 ⟨65535, 1⟩) (NFQUEUE_init_v1 ⟨0, 0⟩) =
        some ⟨.ret 1, 0, ⟨65535, 1⟩⟩) ∧
    (NFQUEUE_parse_v2 OPT_F (fmt_u 65535) 0 (NFQUEUE_init_v1_on_v2 ⟨0, 0, 0⟩) =
        ⟨.ret 1, 0, ⟨65535, 1, 0⟩⟩ ∧
      NFQUEUE_print_v2 ⟨65535, 1, 0⟩ = " NFQUEUE num ".toList ++ fmt_u 65535 ∧
      NFQUEUE_save_v2 ⟨65535, 1, 0⟩ = " --queue-num ".toList ++ fmt_u 65535 ∧
      replay NFQUEUE_parse_v2 (NFQUEUE_save_v2 ⟨65535, 1, 0⟩)
          (NFQUEUE_init_v1_on_v2 ⟨0, 0, 0⟩) =
        some ⟨.ret 1, 0, ⟨65535, 1, 0⟩⟩)) :=
  ⟨by decide, queue_num_round_trip 65535 (by decide)⟩

/-- C7: for every revision-1 record (16-bit fields) with `queue_count > 1`
and `queue_number + queue_count - 1 <= 65535`, `NFQUEUE_save_v1` writes
exactly ` --queue-balance F:L` with `F = queue_number` and
`L = queue_number + queue_count - 1`, and `NFQUEUE_parse_v1` with option
code `'B'` and the text `F:L`, on a fresh record after init with a clear
flag word, succeeds and yields the same `queue_number` and `queue_count`. -/
theorem balance_save_round_trip (r : xt_NFQ_info_v1) (hwf : r.wf)
    (hc : r.queues_total > 1) (hfit : r.queuenum + r.queues_total - 1 ≤ 65535) :
    NFQUEUE_save_v1 r =
        " --queue-balance ".toList ++ fmt_u r.queuenum ++
          ':' :: fmt_u (r.queuenum + r.queues_total - 1) ∧
      NFQUEUE_parse_v1 OPT_B
          (fmt_u r.queuenum ++ ':' :: fmt_u (r.queuenum + r.queues_total - 1)) 0
          (NFQUEUE_init_v1 ⟨0, 0⟩) = ⟨.ret 1, 0, r⟩ := by
  obtain ⟨q, t⟩ := r
  obtain ⟨hq, ht⟩ := hwf
  simp only at hq ht hc hfit
  have hlast := last_queue_eq q t hc hq ht
  constructor
  · unfold NFQUEUE_save_v1
    simp only [hc, if_true, hlast]
  · rw [NFQUEUE_parse_v1_B_fmt q (q + t - 1) (by omega)]
    have h1 : (1 ≤ q + t - 1 ∧ q + t - 1 ≤ 65535) := ⟨by omega, hfit⟩
    have h2 : ¬ (q ≥ q + t - 1) := by omega
    have h3 : q + t - 1 - q + 1 = t := by omega
    have h4 : u16 t = t := u16_of_le (by omega)
    simp [h1, h2, h3, h4]

/-- Witness of `balance_save_round_trip` at the record
`queue_number = 3`, `queue_count = 4` (the range `3:6`). -/
theorem balance_save_round_trip_witness :
    (⟨3, 4⟩ : xt_NFQ_info_v1).wf ∧ (⟨3, 4⟩ : xt_NFQ_info_v1).queues_total > 1 ∧
    (⟨3, 4⟩ : xt_NFQ_info_v1).queuenum + (⟨3, 4⟩ : xt_NFQ_info_v1).queues_total - 1 ≤ 65535 ∧
    (NFQUEUE_save_v1 ⟨3, 4⟩ =
        " --queue-balance ".toList ++ fmt_u (⟨3, 4⟩ : xt_NFQ_info_v1).queuenum ++
          ':' :: fmt_u ((⟨3, 4⟩ : xt_NFQ_info_v1).queuenum +
            (⟨3, 4⟩ : xt_NFQ_info_v1).queues_total - 1) ∧
      NFQUEUE_parse_v1 OPT_B
          (fmt_u (⟨3, 4⟩ : xt_NFQ_info_v1).queuenum ++
            ':' :: fmt_u ((⟨3, 4⟩ : xt_NFQ_info_v1).queuenum +
              (⟨3, 4⟩ : xt_NFQ_info_v1).queues_total - 1)) 0
          (NFQUEUE_init_v1 ⟨0, 0⟩) = ⟨.ret 1, 0, ⟨3, 4⟩⟩) :=
  ⟨by decide, by decide, by decide,
    balance_save_round_trip ⟨3, 4⟩ (by decide) (by decide) (by decide)⟩

/-- C8: for every argument text `s` and a clear flag word, the revision-0
parser on `--queue-num` succeeds if and only if `s` is wholly an unsigned
decimal integer with value in `[0, 65535]`; on success `queue_number` is
that value, and otherwise the call fails with `InvalidQueueNumber` carrying
`s` and leaves the record unchanged.  `65535` succeeds and `65536` fails. -/
theorem single_value_decode (s : List Char) (tinfo : xt_NFQ_info) :
    ((NFQUEUE_parse OPT_F s 0 tinfo).exit = .ret 1 ↔ WholeUInt s 0 65535) ∧
    NFQUEUE_parse OPT_F s 0 tinfo =
      (if WholeUInt s 0 65535 then ⟨.ret 1, 0, ⟨decVal s⟩⟩
       else ⟨.error (.InvalidQueueNumber s), 0, tinfo⟩) ∧
    NFQUEUE_parse OPT_F "65535".toList 0 tinfo = ⟨.ret 1, 0, ⟨65535⟩⟩ ∧
    NFQUEUE_parse OPT_F "65536".toList 0 tinfo =
      ⟨.error (.InvalidQueueNumber "65536".toList), 0, tinfo⟩ := by
  have hgen := NFQUEUE_parse_F_eq
  refine ⟨?_, hgen s tinfo, ?_, ?_⟩
  · rw [hgen]
    by_cases h : WholeUInt s 0 65535
    · simp [h]
    · simp [h]
  · rw [hgen, if_pos (by decide)]
    have : decVal "65535".toList = 65535 := by decide
    rw [this]
  · rw [hgen, if_neg (by decide)]

/-- C9: the revision-1 parser on `--queue-balance` with a clear flag word,
for an argument text made of a leading digit run `lead` and the `rest` at
which the run ends.  If `lead` is not an unsigned integer in `[0, 65535]`
the call fails with `InvalidQueueNumber`; otherwise, if `rest` does not
start with `':'` (also when it is empty) it fails with `MalformedRange`;
otherwise, if the text after the `':'` is not wholly an unsigned integer in
`[1, 65535]` it fails with `InvalidQueueNumber`; otherwise it fails with
`DegenerateRange first last` exactly when `first >= last` and succeeds
exactly when `first < last`. -/
theorem range_decode_classification (lead rest : List Char) (info : xt_NFQ_info_v1)
    (hlead : ∀ c ∈ lead, c.isDigit = true)
    (hrest : ∀ c, rest.head? = some c → c.isDigit = false) :
    (NFQUEUE_parse_v1 OPT_B (lead ++ rest) 0 info).exit =
      if ¬ WholeUInt lead 0 65535 then .error (.InvalidQueueNumber (lead ++ rest))
      else if rest.head? ≠ some ':' then .error (.MalformedRange (lead ++ rest))
      else if ¬ WholeUInt rest.tail 1 65535 then .error (.InvalidQueueNumber (lead ++ rest))
      else if decVal lead ≥ decVal rest.tail then
        .error (.DegenerateRange (decVal lead) (decVal rest.tail))
      else .ret 1 := by
  rw [NFQUEUE_parse_v1_B_eq lead rest info hlead hrest]
  split_ifs <;> rfl

/-- Witness of `range_decode_classification` at the text `10:11`. -/
theorem range_decode_classification_witness :
    (∀ c ∈ "10".toList, c.isDigit = true) ∧
    (∀ c, (':' :: "11".toList).head? = some c → c.isDigit = false) ∧
    (NFQUEUE_parse_v1 OPT_B ("10".toList ++ ':' :: "11".toList) 0 ⟨0, 1⟩).exit =
      if ¬ WholeUInt "10".toList 0 65535 then
        .error (.InvalidQueueNumber ("10".toList ++ ':' :: "11".toList))
      else if (':' :: "11".toList).head? ≠ some ':' then
        .error (.MalformedRange ("10".toList ++ ':' :: "11".toList))
      else if ¬ WholeUInt (':' :: "11".toList).tail 1 65535 then
        .error (.InvalidQueueNumber ("10".toList ++ ':' :: "11".toList))
      else if decVal "10".toList ≥ decVal (':' :: "11".toList).tail then
        .error (.DegenerateRange (decVal "10".toList) (decVal (':' :: "11".toList).tail))
      else .ret 1 :=
  ⟨by decide, colon_stop _,
    range_decode_classification "10".toList (':' :: "11".toList) ⟨0, 1⟩ (by decide)
      (colon_stop _)⟩

/-- C10: the revision-0 parser called with option code `'B'` fails with
`UnsupportedInKernel` for every argument text, every flag word and every
record, which it leaves as they were; it never succeeds and never reports
another error. -/
theorem balance_unsupported_in_revision_0 (s : List Char) (flags : Nat) (tinfo : xt_NFQ_info) :
    NFQUEUE_parse OPT_B s flags tinfo = ⟨.error .UnsupportedInKernel, flags, tinfo⟩ := by
  have hBF : ¬ (OPT_B = OPT_F) := by decide
  unfold NFQUEUE_parse
  rw [if_neg hBF, if_pos rfl]

/-- C11: for every revision-2 record, flag word and argument text,
`NFQUEUE_parse_v2` with option code `'P'` succeeds (returns 1), sets
`bypass` to 1 and leaves `queue_number`, `queue_count` and the flag word
unchanged; a second such call on what the first left gives the same record
and flag word again. -/
theorem bypass_option_idempotent (s1 s2 : List Char) (flags : Nat) (info : xt_NFQ_info_v2) :
    NFQUEUE_parse_v2 OPT_P s1 flags info =
        ⟨.ret 1, flags, ⟨info.queuenum, info.queues_total, 1⟩⟩ ∧
      NFQUEUE_parse_v2 OPT_P s2 (NFQUEUE_parse_v2 OPT_P s1 flags info).flags
          (NFQUEUE_parse_v2 OPT_P s1 flags info).info =
        NFQUEUE_parse_v2 OPT_P s1 flags info := by
  unfold NFQUEUE_parse_v2
  simp

/-- C12: for every revision-2 record, what `NFQUEUE_print_v2` prints is what
`NFQUEUE_print_v1` prints for its `queue_number` and `queue_count`, followed
by ` bypass` if and only if `bypass` is non-zero.  The record built by
`--queue-num 5` then `--queue-bypass` prints ` NFQUEUE num 5 bypass`, the
one built by `--queue-num 5` alone prints ` NFQUEUE num 5`. -/
theorem print_v2_layers_on_print_v1 (info : xt_NFQ_info_v2) :
    (NFQUEUE_print_v2 info = NFQUEUE_print_v1 info.as_v1 ++ " bypass".toList ↔
        info.bypass ≠ 0) ∧
    (NFQUEUE_print_v2 info = NFQUEUE_print_v1 info.as_v1 ↔ info.bypass = 0) ∧
    run NFQUEUE_parse_v2 [(OPT_F, "5".toList), (OPT_P, [])] 0
        (NFQUEUE_init_v1_on_v2 ⟨0, 0, 0⟩) = ⟨.ret 1, 0, ⟨5, 1, 1⟩⟩ ∧
    NFQUEUE_print_v2 ⟨5, 1, 1⟩ = " NFQUEUE num 5 bypass".toList ∧
    run NFQUEUE_parse_v2 [(OPT_F, "5".toList)] 0
        (NFQUEUE_init_v1_on_v2 ⟨0, 0, 0⟩) = ⟨.ret 1, 0, ⟨5, 1, 0⟩⟩ ∧
    NFQUEUE_print_v2 ⟨5, 1, 0⟩ = " NFQUEUE num 5".toList := by
  refine ⟨?_, ?_, by decide, by decide, by decide, by decide⟩
  · unfold NFQUEUE_print_v2
    by_cases hb : info.bypass = 0
    · simp [hb]
    · simp [hb]
  · unfold NFQUEUE_print_v2
    by_cases hb : info.bypass = 0
    · simp [hb]
    · simp [hb]

/-- C13: for every revision-1 record with 16-bit fields: when
`queue_count > 1`, `NFQUEUE_print_v1` prints ` NFQUEUE balance A:B` with
`A = queue_number` and `B` the exact integer
`queue_number + queue_count - 1` (the `unsigned int` sum does not wrap); when
`queue_count` is 0 or 1 it prints what the revision-0 printer prints for the
same `queue_number`. -/
theorem print_v1_forms (r : xt_NFQ_info_v1) (hwf : r.wf) :
    NFQUEUE_print_v1 r =
      if r.queues_total > 1 then
        " NFQUEUE balance ".toList ++ fmt_u r.queuenum ++
          ':' :: fmt_u (r.queuenum + r.queues_total - 1)
      else NFQUEUE_print ⟨r.queuenum⟩ := by
  obtain ⟨q, t⟩ := r
  obtain ⟨hq, ht⟩ := hwf
  simp only at hq ht
  unfold NFQUEUE_print_v1 NFQUEUE_print
  by_cases hc : t > 1
  · simp only [hc, if_true, last_queue_eq q t hc hq ht]
  · simp only [hc, if_false]

/-- Witness of `print_v1_forms` at the record with both fields 65535, whose
last queue 131069 would not fit 16 bits. -/
theorem print_v1_forms_witness :
    (⟨65535, 65535⟩ : xt_NFQ_info_v1).wf ∧
    NFQUEUE_print_v1 ⟨65535, 65535⟩ =
      if (⟨65535, 65535⟩ : xt_NFQ_info_v1).queues_total > 1 then
        " NFQUEUE balance ".toList ++ fmt_u (⟨65535, 65535⟩ : xt_NFQ_info_v1).queuenum ++
          ':' :: fmt_u ((⟨65535, 65535⟩ : xt_NFQ_info_v1).queuenum +
            (⟨65535, 65535⟩ : xt_NFQ_info_v1).queues_total - 1)
      else NFQUEUE_print ⟨(⟨65535, 65535⟩ : xt_NFQ_info_v1).queuenum⟩ :=
  ⟨by decide, print_v1_forms ⟨65535, 65535⟩ (by decide)⟩

/-- C14: for every option code other than `'P'`, every argument text, flag
word and revision-2 record, `NFQUEUE_parse_v2` ends as `NFQUEUE_parse_v1`
does on the record's `queue_number` and `queue_count`: the same return or
the same error, the same flag word, the same two queue fields, and `bypass`
as it was. -/
theorem parse_v2_delegates_to_v1 (c : Int) (hc : c ≠ OPT_P) (s : List Char) (flags : Nat)
    (info : xt_NFQ_info_v2) :
    (NFQUEUE_parse_v2 c s flags info).exit = (NFQUEUE_parse_v1 c s flags info.as_v1).exit ∧
    (NFQUEUE_parse_v2 c s flags info).flags = (NFQUEUE_parse_v1 c s flags info.as_v1).flags ∧
    (NFQUEUE_parse_v2 c s flags info).info.as_v1 =
      (NFQUEUE_parse_v1 c s flags info.as_v1).info ∧
    (NFQUEUE_parse_v2 c s flags info).info.bypass = info.bypass := by
  unfold NFQUEUE_parse_v2
  rw [if_neg hc]
  exact ⟨rfl, rfl, rfl, rfl⟩

/-- Witness of `parse_v2_delegates_to_v1` at option code `'B'`, the text
`10:11` and a record with `bypass` set. -/
theorem parse_v2_delegates_to_v1_witness :
    OPT_B ≠ OPT_P ∧
    ((NFQUEUE_parse_v2 OPT_B "10:11".toList 0 ⟨0, 1, 1⟩).exit =
        (NFQUEUE_parse_v1 OPT_B "10:11".toList 0 (⟨0, 1, 1⟩ : xt_NFQ_info_v2).as_v1).exit ∧
      (NFQUEUE_parse_v2 OPT_B "10:11".toList 0 ⟨0, 1, 1⟩).flags =
        (NFQUEUE_parse_v1 OPT_B "10:11".toList 0 (⟨0, 1, 1⟩ : xt_NFQ_info_v2).as_v1).flags ∧
      (NFQUEUE_parse_v2 OPT_B "10:11".toList 0 ⟨0, 1, 1⟩).info.as_v1 =
        (NFQUEUE_parse_v1 OPT_B "10:11".toList 0 (⟨0, 1, 1⟩ : xt_NFQ_info_v2).as_v1).info ∧
      (NFQUEUE_parse_v2 OPT_B "10:11".toList 0 ⟨0, 1, 1⟩).info.bypass =
        (⟨0, 1, 1⟩ : xt_NFQ_info_v2).bypass) :=
  ⟨by decide, parse_v2_delegates_to_v1 OPT_B (by decide) "10:11".toList 0 ⟨0, 1, 1⟩⟩

/-- C15: on `--queue-num`, for every argument text and every flag word,
revision 1 ends as revision 0 does: it returns exactly when revision 0
returns and fails with the same error (`DuplicateOption`, or
`InvalidQueueNumber` carrying the text) when revision 0 fails; it never
writes `queue_count`, and when the call succeeds it has written the
`queue_number` that revision 0 writes. -/
theorem parse_v1_queue_num_as_revision_0 (s : List Char) (flags : Nat) (tinfo : xt_NFQ_info)
    (info : xt_NFQ_info_v1) :
    (NFQUEUE_parse_v1 OPT_F s flags info).exit = (NFQUEUE_parse OPT_F s flags tinfo).exit ∧
    (NFQUEUE_parse_v1 OPT_F s flags info).info.queues_total = info.queues_total ∧
    ((NFQUEUE_parse OPT_F s flags tinfo).exit = .ret 1 →
      (NFQUEUE_parse_v1 OPT_F s flags info).info.queuenum =
        (NFQUEUE_parse OPT_F s flags tinfo).info.queuenum) := by
  by_cases hfl : flags = 0
  · subst hfl
    rw [NFQUEUE_parse_v1_F_eq, NFQUEUE_parse_F_eq]
    by_cases hw : WholeUInt s 0 65535
    · simp [hw]
    · by_cases hl : WholeUInt (s.takeWhile Char.isDigit) 0 65535
      · simp [hw, hl]
      · simp [hw, hl]
  · unfold NFQUEUE_parse_v1 NFQUEUE_parse
    simp [hfl]

/-- Witness of `parse_v1_queue_num_as_revision_0` at the text `7` with a
clear flag word, where both revisions succeed. -/
theorem parse_v1_queue_num_as_revision_0_witness :
    (NFQUEUE_parse OPT_F "7".toList 0 ⟨0⟩).exit = .ret 1 ∧
    ((NFQUEUE_parse_v1 OPT_F "7".toList 0 ⟨0, 1⟩).exit =
        (NFQUEUE_parse OPT_F "7".toList 0 ⟨0⟩).exit ∧
      (NFQUEUE_parse_v1 OPT_F "7".toList 0 ⟨0, 1⟩).info.queues_total =
        (⟨0, 1⟩ : xt_NFQ_info_v1).queues_total ∧
      ((NFQUEUE_parse OPT_F "7".toList 0 ⟨0⟩).exit = .ret 1 →
        (NFQUEUE_parse_v1 OPT_F "7".toList 0 ⟨0, 1⟩).info.queuenum =
          (NFQUEUE_parse OPT_F "7".toList 0 ⟨0⟩).info.queuenum)) :=
  ⟨by decide, parse_v1_queue_num_as_revision_0 "7".toList 0 ⟨0⟩ ⟨0, 1⟩⟩

/-- C16: the table `nfqueue_targets` holds exactly three descriptors, with
revision numbers 0, 1 and 2 (pairwise distinct), each with family
unspecified and name `NFQUEUE`; revision 0 has no init function, revisions
1 and 2 have `NFQUEUE_init_v1` (revision 2 on the first two fields of its
record), which sets `queue_count = 1` and leaves `queue_number` and `bypass`
as they were, so a zeroed record becomes `queue_number = 0`,
`queue_count = 1`, `bypass = 0`. -/
theorem registry_and_default :
    nfqueue_targets.length = 3 ∧
    nfqueue_targets.map (fun t => t.revision) = [0, 1, 2] ∧
    (nfqueue_targets.map (fun t => t.revision)).Nodup ∧
    nfqueue_targets.map (fun t => t.family) =
      [NFPROTO_UNSPEC, NFPROTO_UNSPEC, NFPROTO_UNSPEC] ∧
    nfqueue_targets.map (fun t => t.name) =
      ["NFQUEUE".toList, "NFQUEUE".toList, "NFQUEUE".toList] ∧
    nfqueue_targets.map xtables_target.init_entry =
      [⟨xt_NFQ_info, none⟩, ⟨xt_NFQ_info_v1, some NFQUEUE_init_v1⟩,
        ⟨xt_NFQ_info_v2, some NFQUEUE_init_v1_on_v2⟩] ∧
    (∀ r : xt_NFQ_info_v1, NFQUEUE_init_v1 r = ⟨r.queuenum, 1⟩) ∧
    (∀ r : xt_NFQ_info_v2, NFQUEUE_init_v1_on_v2 r = ⟨r.queuenum, 1, r.bypass⟩) ∧
    NFQUEUE_init_v1 ⟨0, 0⟩ = ⟨0, 1⟩ ∧
    NFQUEUE_init_v1_on_v2 ⟨0, 0, 0⟩ = ⟨0, 1, 0⟩ := by
  refine ⟨rfl, rfl, by decide, rfl, rfl, rfl, fun _ => rfl, fun _ => rfl, rfl, rfl⟩

/-- C17: whenever the flag word is non-zero on entry, `NFQUEUE_parse` with
option code `'F'`, and `NFQUEUE_parse_v1` and `NFQUEUE_parse_v2` with option
code `'F'` or `'B'`, fail with `DuplicateOption` for every argument text,
well formed or not, and leave the record and the flag word as they were. -/
theorem set_flag_rejects_before_decoding (flags : Nat) (hfl : flags ≠ 0) (s : List Char)
    (tinfo : xt_NFQ_info) (info1 : xt_NFQ_info_v1) (info2 : xt_NFQ_info_v2) :
    NFQUEUE_parse OPT_F s flags tinfo = ⟨.error .DuplicateOption, flags, tinfo⟩ ∧
    NFQUEUE_parse_v1 OPT_F s flags info1 = ⟨.error .DuplicateOption, flags, info1⟩ ∧
    NFQUEUE_parse_v1 OPT_B s flags info1 = ⟨.error .DuplicateOption, flags, info1⟩ ∧
    NFQUEUE_parse_v2 OPT_F s flags info2 = ⟨.error .DuplicateOption, flags, info2⟩ ∧
    NFQUEUE_parse_v2 OPT_B s flags info2 = ⟨.error .DuplicateOption, flags, info2⟩ := by
  have hFP : ¬ (OPT_F = OPT_P) := by decide
  have hBP : ¬ (OPT_B = OPT_P) := by decide
  have h1F : NFQUEUE_parse_v1 OPT_F s flags info2.as_v1 =
      ⟨.error .DuplicateOption, flags, info2.as_v1⟩ := by
    unfold NFQUEUE_parse_v1; simp [hfl]
  have h1B : NFQUEUE_parse_v1 OPT_B s flags info2.as_v1 =
      ⟨.error .DuplicateOption, flags, info2.as_v1⟩ := by
    unfold NFQUEUE_parse_v1; simp [hfl]
  refine ⟨?_, ?_, ?_, ?_, ?_⟩
  · unfold NFQUEUE_parse; simp [hfl]
  · unfold NFQUEUE_parse_v1; simp [hfl]
  · unfold NFQUEUE_parse_v1; simp [hfl]
  · unfold NFQUEUE_parse_v2
    rw [if_neg hFP]
    simp only [h1F]
    rfl
  · unfold NFQUEUE_parse_v2
    rw [if_neg hBP]
    simp only [h1B]
    rfl

/-- Witness of `set_flag_rejects_before_decoding` at flag word 1 and the
malformed text `x:y`. -/
theorem set_flag_rejects_before_decoding_witness :
    (1 : Nat) ≠ 0 ∧
    (NFQUEUE_parse OPT_F "x:y".toList 1 ⟨3⟩ = ⟨.error .DuplicateOption, 1, ⟨3⟩⟩ ∧
      NFQUEUE_parse_v1 OPT_F "x:y".toList 1 ⟨3, 4⟩ = ⟨.error .DuplicateOption, 1, ⟨3, 4⟩⟩ ∧
      NFQUEUE_parse_v1 OPT_B "x:y".toList 1 ⟨3, 4⟩ = ⟨.error .DuplicateOption, 1, ⟨3, 4⟩⟩ ∧
      NFQUEUE_parse_v2 OPT_F "x:y".toList 1 ⟨3, 4, 1⟩ =
        ⟨.error .DuplicateOption, 1, ⟨3, 4, 1⟩⟩ ∧
      NFQUEUE_parse_v2 OPT_B "x:y".toList 1 ⟨3, 4, 1⟩ =
        ⟨.error .DuplicateOption, 1, ⟨3, 4, 1⟩⟩) :=
  ⟨by decide, set_flag_rejects_before_decoding 1 (by decide) "x:y".toList ⟨3⟩ ⟨3, 4⟩ ⟨3, 4, 1⟩⟩

/-- C18: in revisions 0 and 1 the parser called with an option code other
than `'F'` and `'B'` returns 1 and leaves the record and the flag word
unchanged, for every argument text and flag word.  `'P'` is such a code and
is the code of `--queue-bypass` in the shared option table, so these
revisions accept the bypass option without effect. -/
theorem other_codes_accepted_without_effect (c : Int) (hF : c ≠ OPT_F) (hB : c ≠ OPT_B)
    (s : List Char) (flags : Nat) (tinfo : xt_NFQ_info) (info : xt_NFQ_info_v1) :
    NFQUEUE_parse c s flags tinfo = ⟨.ret 1, flags, tinfo⟩ ∧
    NFQUEUE_parse_v1 c s flags info = ⟨.ret 1, flags, info⟩ ∧
    OPT_P ≠ OPT_F ∧ OPT_P ≠ OPT_B ∧
    find_opt "--queue-bypass".toList =
      some { name := "queue-bypass".toList, has_arg := false, val := OPT_P } := by
  refine ⟨?_, ?_, by decide, by decide, by decide⟩
  · unfold NFQUEUE_parse
    rw [if_neg hF, if_neg hB]
  · unfold NFQUEUE_parse_v1
    rw [if_neg (by rintro (h | h); exact hF h; exact hB h)]

/-- Witness of `other_codes_accepted_without_effect` at option code `'P'`
with a set flag word. -/
theorem other_codes_accepted_without_effect_witness :
    OPT_P ≠ OPT_F ∧ OPT_P ≠ OPT_B ∧
    (NFQUEUE_parse OPT_P [] 1 ⟨3⟩ = ⟨.ret 1, 1, ⟨3⟩⟩ ∧
      NFQUEUE_parse_v1 OPT_P [] 1 ⟨3, 4⟩ = ⟨.ret 1, 1, ⟨3, 4⟩⟩ ∧
      OPT_P ≠ OPT_F ∧ OPT_P ≠ OPT_B ∧
      find_opt "--queue-bypass".toList =
        some { name := "queue-bypass".toList, has_arg := false, val := OPT_P }) :=
  ⟨by decide, by decide,
    other_codes_accepted_without_effect OPT_P (by decide) (by decide) [] 1 ⟨3⟩ ⟨3, 4⟩⟩

end NFQUEUE
